import Mathlib

/-!
# AgroSense quota-aware memory accounting: a shallow embedding

This file embeds the quota allocator of `src/AgroSense.cpp` (functions
`pvPortMallocWithQuota` and `vPortFreeWithTracking`, globals
`sensorMemUsage` / `commMemUsage`, constants `SENSOR_TASK_QUOTA` /
`COMM_TASK_QUOTA`) into Lean and proves the testable properties of the
specification against it.

Modelling decisions:
* `size_t` values are `Nat`s; arithmetic that the C code performs on
  `size_t` is taken modulo `SIZE_T_MOD = 2 ^ 32` (the target is a 32-bit
  ESP32, so `size_t` is 32 bits wide and both the addition in the quota
  check and the subtraction in the free path wrap).
* Task handles (`TaskHandle_t`) are an opaque identity type with the two
  registered units (`sensor`, `comm`) as distinguished values; any other
  handle (for example the heap-monitor task) is `other n`.
* The external heap provider `pvPortMalloc` is a parameter
  `heap : Nat → Nat` mapping the requested size to the returned pointer,
  with `0` encoding `NULL` (failure).  `vPortFree` has no observable
  effect on the ledger; the pointers passed to it are recorded in a trace
  field so that claims about *whether* it is invoked can be stated.
* `Serial.printf` diagnostics are recorded as a list of `Diag` events.
* The mutex serializes the two functions; each locked critical section is
  one atomic step of the sequential model.  Whether the lock was taken at
  all is observable in the free path (`lockTaken`), because the null-guard
  returns before taking it.
-/

namespace AgroSense

/-- `2 ^ 32`: modulus of `size_t` arithmetic on the 32-bit target. -/
def SIZE_T_MOD : Nat := 2 ^ 32

/-- `#define SENSOR_TASK_QUOTA 2048` (AgroSense.cpp line 7). -/
def SENSOR_TASK_QUOTA : Nat := 2048

/-- `#define COMM_TASK_QUOTA 2048` (AgroSense.cpp line 8). -/
def COMM_TASK_QUOTA : Nat := 2048

/-- Execution-unit identity (`TaskHandle_t`).  `sensor` and `comm` are the
two handles registered in the ledger (`sensorTaskHandle`,
`commTaskHandle`); every other task handle is `other n`. -/
inductive TaskHandle where
  | sensor
  | comm
  | other (id : Nat)
deriving DecidableEq, Repr

/-- The usage ledger: the two globals `sensorMemUsage` and `commMemUsage`
(AgroSense.cpp lines 17-18), both `size_t` so always `< SIZE_T_MOD`. -/
structure MemState where
  sensorMemUsage : Nat
  commMemUsage : Nat
deriving DecidableEq, Repr

/-- Both counters start at `0`. -/
def initState : MemState := ⟨0, 0⟩

/-- Diagnostic lines emitted through `Serial.printf` on the quota-exceeded
path (the only failure path that prints inside the allocator). -/
inductive Diag where
  | quotaExceeded (unit : TaskHandle) (requested : Nat) (used : Nat) (quota : Nat)
deriving DecidableEq, Repr

/-- Observable outcome of one `pvPortMallocWithQuota` call: the returned
pointer (`0` = `NULL`), the ledger after the call, the sizes passed to the
heap provider `pvPortMalloc`, and the diagnostics printed. -/
structure MallocResult where
  ret : Nat
  state : MemState
  heapCalls : List Nat
  diags : List Diag
deriving DecidableEq, Repr

/-- Shallow embedding of `pvPortMallocWithQuota` (AgroSense.cpp lines
22-46).  `heap` is the external `pvPortMalloc`; the quota check
`(usage + size) <= QUOTA` is `size_t` addition, hence the `% SIZE_T_MOD`.
On success the same wrapped sum is stored back (`usage += size`). -/
def pvPortMallocWithQuota (heap : Nat → Nat) (size : Nat) (taskHandle : TaskHandle)
    (s : MemState) : MallocResult :=
  if taskHandle = TaskHandle.sensor then
    if (s.sensorMemUsage + size) % SIZE_T_MOD ≤ SENSOR_TASK_QUOTA then
      let ptr := heap size
      if ptr ≠ 0 then
        { ret := ptr
          state := { s with sensorMemUsage := (s.sensorMemUsage + size) % SIZE_T_MOD }
          heapCalls := [size]
          diags := [] }
      else
        { ret := 0, state := s, heapCalls := [size], diags := [] }
    else
      { ret := 0, state := s, heapCalls := []
        diags := [Diag.quotaExceeded TaskHandle.sensor size s.sensorMemUsage SENSOR_TASK_QUOTA] }
  else if taskHandle = TaskHandle.comm then
    if (s.commMemUsage + size) % SIZE_T_MOD ≤ COMM_TASK_QUOTA then
      let ptr := heap size
      if ptr ≠ 0 then
        { ret := ptr
          state := { s with commMemUsage := (s.commMemUsage + size) % SIZE_T_MOD }
          heapCalls := [size]
          diags := [] }
      else
        { ret := 0, state := s, heapCalls := [size], diags := [] }
    else
      { ret := 0, state := s, heapCalls := []
        diags := [Diag.quotaExceeded TaskHandle.comm size s.commMemUsage COMM_TASK_QUOTA] }
  else
    { ret := 0, state := s, heapCalls := [], diags := [] }

/-- Observable outcome of one `vPortFreeWithTracking` call: the ledger
after the call, whether the mutex was taken, and the pointers handed to
the external `vPortFree`. -/
structure FreeResult where
  state : MemState
  lockTaken : Bool
  heapReleased : List Nat
deriving DecidableEq, Repr

/-- Shallow embedding of `vPortFreeWithTracking` (AgroSense.cpp lines
48-60).  A null pointer returns before the mutex is taken.  The decrement
`usage -= size` is `size_t` subtraction, encoded as addition of the
modular complement of `size`. -/
def vPortFreeWithTracking (ptr : Nat) (size : Nat) (taskHandle : TaskHandle)
    (s : MemState) : FreeResult :=
  if ptr = 0 then
    { state := s, lockTaken := false, heapReleased := [] }
  else
    let s' :=
      if taskHandle = TaskHandle.sensor then
        { s with sensorMemUsage :=
            (s.sensorMemUsage + (SIZE_T_MOD - size % SIZE_T_MOD)) % SIZE_T_MOD }
      else if taskHandle = TaskHandle.comm then
        { s with commMemUsage :=
            (s.commMemUsage + (SIZE_T_MOD - size % SIZE_T_MOD)) % SIZE_T_MOD }
      else s
    { state := s', lockTaken := true, heapReleased := [ptr] }

/-!
## Call traces and the caller contract

The spec's caller contract (§3, "Allocation record") is caller-held: each
release must report the unit, pointer and size of a prior successful
allocation that has not yet been released.  We model it with a ghost
multiset of outstanding allocations carried alongside the ledger; a trace
respects the contract exactly when every `free` step finds its record
outstanding.  Each `alloc` step carries the pointer the external heap
returned for that call (`0` = `NULL`), so traces range over all possible
heap behaviours.
-/

/-- One call into the allocator.  `alloc size ptrRet t` is
`pvPortMallocWithQuota(size, t)` where the external `pvPortMalloc`
returned `ptrRet`; `free ptr size t` is
`vPortFreeWithTracking(ptr, size, t)`. -/
inductive Op where
  | alloc (size : Nat) (ptrRet : Nat) (t : TaskHandle)
  | free (ptr : Nat) (size : Nat) (t : TaskHandle)
deriving DecidableEq, Repr

/-- Ledger state plus the ghost list of outstanding allocations
`(unit, pointer, size)` held by callers. -/
structure Ghost where
  mem : MemState
  out : List (TaskHandle × Nat × Nat)
deriving DecidableEq, Repr

/-- Initial state: both counters `0`, nothing outstanding. -/
def initGhost : Ghost := ⟨initState, []⟩

/-- Remove the first occurrence of `e` from the outstanding list. -/
def removeOut (e : TaskHandle × Nat × Nat) :
    List (TaskHandle × Nat × Nat) → List (TaskHandle × Nat × Nat)
  | [] => []
  | x :: l => if x = e then l else x :: removeOut e l

/-- One contract-checked step.  An `alloc` always runs (recording the new
outstanding allocation when the call succeeded); a `free` runs only if its
record is outstanding — otherwise the trace violates the caller contract
and the step is `none`. -/
def gstep (g : Ghost) : Op → Option Ghost
  | Op.alloc size ptrRet t =>
      let r := pvPortMallocWithQuota (fun _ => ptrRet) size t g.mem
      some { mem := r.state
             out := if r.ret ≠ 0 then (t, r.ret, size) :: g.out else g.out }
  | Op.free ptr size t =>
      if (t, ptr, size) ∈ g.out then
        some { mem := (vPortFreeWithTracking ptr size t g.mem).state
               out := removeOut (t, ptr, size) g.out }
      else none

/-- Run a trace from `g`; `none` as soon as the caller contract is
violated. -/
def gRun (g : Ghost) : List Op → Option Ghost
  | [] => some g
  | op :: ops =>
      match gstep g op with
      | some g' => gRun g' ops
      | none => none

/-- Sum of the sizes of unit `t`'s outstanding allocations. -/
def sumFor (t : TaskHandle) : List (TaskHandle × Nat × Nat) → Nat
  | [] => 0
  | e :: l => (if e.1 = t then e.2.2 else 0) + sumFor t l

/-- `true` for `alloc` steps whose requested size cannot wrap the `size_t`
quota check (`size + quota < 2 ^ 32`); `free` steps are unconstrained. -/
def allocSmall : Op → Bool
  | Op.alloc size _ _ =>
      decide (size + SENSOR_TASK_QUOTA < SIZE_T_MOD) &&
      decide (size + COMM_TASK_QUOTA < SIZE_T_MOD)
  | Op.free _ _ _ => true

/-!
## Ledger invariants along contract-respecting traces
-/

/-- Conservation invariant: each counter equals the modular sum of the
unit's outstanding sizes, and every outstanding pointer is nonzero. -/
def ConsInv (g : Ghost) : Prop :=
  g.mem.sensorMemUsage = sumFor TaskHandle.sensor g.out % SIZE_T_MOD ∧
  g.mem.commMemUsage = sumFor TaskHandle.comm g.out % SIZE_T_MOD ∧
  ∀ e ∈ g.out, e.2.1 ≠ 0

/-- Quota invariant (needs wrap-free allocation sizes): each counter is
the exact sum of the unit's outstanding sizes and stays below the quota;
every outstanding pointer is nonzero. -/
def QuotaInv (g : Ghost) : Prop :=
  g.mem.sensorMemUsage = sumFor TaskHandle.sensor g.out ∧
  g.mem.commMemUsage = sumFor TaskHandle.comm g.out ∧
  sumFor TaskHandle.sensor g.out ≤ SENSOR_TASK_QUOTA ∧
  sumFor TaskHandle.comm g.out ≤ COMM_TASK_QUOTA ∧
  ∀ e ∈ g.out, e.2.1 ≠ 0

/-- Ledger view: the usage counter belonging to a handle (`0` for
unregistered handles, which have no ledger entry). -/
def usageOf : TaskHandle → MemState → Nat
  | TaskHandle.sensor, s => s.sensorMemUsage
  | TaskHandle.comm, s => s.commMemUsage
  | TaskHandle.other _, _ => 0

/-- Ledger view: the quota belonging to a handle (`0` for unregistered
handles). -/
def quotaOf : TaskHandle → Nat
  | TaskHandle.sensor => SENSOR_TASK_QUOTA
  | TaskHandle.comm => COMM_TASK_QUOTA
  | TaskHandle.other _ => 0

theorem SIZE_T_MOD_eq : SIZE_T_MOD = 4294967296 := by norm_num [SIZE_T_MOD]

theorem SENSOR_TASK_QUOTA_eq : SENSOR_TASK_QUOTA = 2048 := rfl

theorem COMM_TASK_QUOTA_eq : COMM_TASK_QUOTA = 2048 := rfl

theorem le_sumFor {t : TaskHandle} {e : TaskHandle × Nat × Nat}
    {l : List (TaskHandle × Nat × Nat)} (he : e ∈ l) (ht : e.1 = t) :
    e.2.2 ≤ sumFor t l := by
  induction l with
  | nil => cases he
  | cons x l ih =>
      rcases List.mem_cons.mp he with rfl | hmem
      · simp [sumFor, ht]
      · have := ih hmem
        simp only [sumFor]
        omega

theorem sumFor_removeOut {t : TaskHandle} {e : TaskHandle × Nat × Nat}
    {l : List (TaskHandle × Nat × Nat)} (he : e ∈ l) :
    sumFor t (removeOut e l) = sumFor t l - (if e.1 = t then e.2.2 else 0) := by
  induction l with
  | nil => cases he
  | cons x l ih =>
      by_cases hx : x = e
      · subst hx
        simp [removeOut, sumFor]
      · rcases List.mem_cons.mp he with rfl | hmem
        · exact absurd rfl hx
        · have hrec := ih hmem
          have hle : (if e.1 = t then e.2.2 else 0) ≤ sumFor t l := by
            by_cases h1 : e.1 = t
            · simpa [h1] using le_sumFor hmem h1
            · simp [h1]
          simp only [removeOut, if_neg hx, sumFor, hrec]
          omega

theorem mem_removeOut {e x : TaskHandle × Nat × Nat}
    {l : List (TaskHandle × Nat × Nat)} (hx : x ∈ removeOut e l) : x ∈ l := by
  induction l with
  | nil => simp [removeOut] at hx
  | cons y l ih =>
      by_cases hy : y = e
      · subst hy
        simp only [removeOut, if_pos rfl] at hx
        exact List.mem_cons_of_mem _ hx
      · simp only [removeOut, if_neg hy] at hx
        rcases List.mem_cons.mp hx with rfl | hmem
        · exact List.mem_cons_self _ _
        · exact List.mem_cons_of_mem _ (ih hmem)

theorem consInv_initGhost : ConsInv initGhost := by
  refine ⟨rfl, rfl, ?_⟩
  intro e he
  simp [initGhost] at he

theorem quotaInv_initGhost : QuotaInv initGhost := by
  refine ⟨rfl, rfl, ?_, ?_, ?_⟩
  · simp [initGhost, sumFor, SENSOR_TASK_QUOTA]
  · simp [initGhost, sumFor, COMM_TASK_QUOTA]
  · intro e he
    simp [initGhost] at he
/-!
## Branch equations

One equation per control-flow path of the two source functions; all later
proofs reduce calls with these.
-/

theorem malloc_sensor_ok {heap : Nat → Nat} {size : Nat} {s : MemState}
    (hq : (s.sensorMemUsage + size) % SIZE_T_MOD ≤ SENSOR_TASK_QUOTA)
    (hp : heap size ≠ 0) :
    pvPortMallocWithQuota heap size TaskHandle.sensor s =
      { ret := heap size
        state := { s with sensorMemUsage := (s.sensorMemUsage + size) % SIZE_T_MOD }
        heapCalls := [size], diags := [] } := by
  simp [pvPortMallocWithQuota, hq, hp]

theorem malloc_sensor_oom {heap : Nat → Nat} {size : Nat} {s : MemState}
    (hq : (s.sensorMemUsage + size) % SIZE_T_MOD ≤ SENSOR_TASK_QUOTA)
    (hp : heap size = 0) :
    pvPortMallocWithQuota heap size TaskHandle.sensor s =
      { ret := 0, state := s, heapCalls := [size], diags := [] } := by
  simp [pvPortMallocWithQuota, hq, hp]

theorem malloc_sensor_reject {heap : Nat → Nat} {size : Nat} {s : MemState}
    (hq : ¬ (s.sensorMemUsage + size) % SIZE_T_MOD ≤ SENSOR_TASK_QUOTA) :
    pvPortMallocWithQuota heap size TaskHandle.sensor s =
      { ret := 0, state := s, heapCalls := []
        diags := [Diag.quotaExceeded TaskHandle.sensor size s.sensorMemUsage
          SENSOR_TASK_QUOTA] } := by
  simp [pvPortMallocWithQuota, hq]

theorem malloc_comm_ok {heap : Nat → Nat} {size : Nat} {s : MemState}
    (hq : (s.commMemUsage + size) % SIZE_T_MOD ≤ COMM_TASK_QUOTA)
    (hp : heap size ≠ 0) :
    pvPortMallocWithQuota heap size TaskHandle.comm s =
      { ret := heap size
        state := { s with commMemUsage := (s.commMemUsage + size) % SIZE_T_MOD }
        heapCalls := [size], diags := [] } := by
  simp [pvPortMallocWithQuota, hq, hp]

theorem malloc_comm_oom {heap : Nat → Nat} {size : Nat} {s : MemState}
    (hq : (s.commMemUsage + size) % SIZE_T_MOD ≤ COMM_TASK_QUOTA)
    (hp : heap size = 0) :
    pvPortMallocWithQuota heap size TaskHandle.comm s =
      { ret := 0, state := s, heapCalls := [size], diags := [] } := by
  simp [pvPortMallocWithQuota, hq, hp]

theorem malloc_comm_reject {heap : Nat → Nat} {size : Nat} {s : MemState}
    (hq : ¬ (s.commMemUsage + size) % SIZE_T_MOD ≤ COMM_TASK_QUOTA) :
    pvPortMallocWithQuota heap size TaskHandle.comm s =
      { ret := 0, state := s, heapCalls := []
        diags := [Diag.quotaExceeded TaskHandle.comm size s.commMemUsage
          COMM_TASK_QUOTA] } := by
  simp [pvPortMallocWithQuota, hq]

theorem malloc_unregistered {heap : Nat → Nat} {size : Nat} {t : TaskHandle}
    {s : MemState} (h1 : t ≠ TaskHandle.sensor) (h2 : t ≠ TaskHandle.comm) :
    pvPortMallocWithQuota heap size t s =
      { ret := 0, state := s, heapCalls := [], diags := [] } := by
  simp [pvPortMallocWithQuota, h1, h2]

theorem free_null {size : Nat} {t : TaskHandle} {s : MemState} :
    vPortFreeWithTracking 0 size t s =
      { state := s, lockTaken := false, heapReleased := [] } := by
  simp [vPortFreeWithTracking]

theorem free_sensor {ptr size : Nat} {s : MemState} (hp : ptr ≠ 0) :
    vPortFreeWithTracking ptr size TaskHandle.sensor s =
      { state := { s with sensorMemUsage :=
          (s.sensorMemUsage + (SIZE_T_MOD - size % SIZE_T_MOD)) % SIZE_T_MOD }
        lockTaken := true, heapReleased := [ptr] } := by
  simp [vPortFreeWithTracking, hp]

theorem free_comm {ptr size : Nat} {s : MemState} (hp : ptr ≠ 0) :
    vPortFreeWithTracking ptr size TaskHandle.comm s =
      { state := { s with commMemUsage :=
          (s.commMemUsage + (SIZE_T_MOD - size % SIZE_T_MOD)) % SIZE_T_MOD }
        lockTaken := true, heapReleased := [ptr] } := by
  simp [vPortFreeWithTracking, hp]

theorem free_unregistered {ptr size : Nat} {t : TaskHandle} {s : MemState}
    (hp : ptr ≠ 0) (h1 : t ≠ TaskHandle.sensor) (h2 : t ≠ TaskHandle.comm) :
    vPortFreeWithTracking ptr size t s =
      { state := s, lockTaken := true, heapReleased := [ptr] } := by
  simp [vPortFreeWithTracking, hp, h1, h2]

/-!
## Branch equations for contract-checked steps
-/

theorem gstep_alloc_sensor_ok {g : Ghost} {size ptrRet : Nat}
    (hq : (g.mem.sensorMemUsage + size) % SIZE_T_MOD ≤ SENSOR_TASK_QUOTA)
    (hp : ptrRet ≠ 0) :
    gstep g (Op.alloc size ptrRet TaskHandle.sensor) =
      some ⟨{ g.mem with sensorMemUsage := (g.mem.sensorMemUsage + size) % SIZE_T_MOD },
            (TaskHandle.sensor, ptrRet, size) :: g.out⟩ := by
  have h := @malloc_sensor_ok (fun _ => ptrRet) size g.mem hq hp
  simp [gstep, h, hp]

theorem gstep_alloc_comm_ok {g : Ghost} {size ptrRet : Nat}
    (hq : (g.mem.commMemUsage + size) % SIZE_T_MOD ≤ COMM_TASK_QUOTA)
    (hp : ptrRet ≠ 0) :
    gstep g (Op.alloc size ptrRet TaskHandle.comm) =
      some ⟨{ g.mem with commMemUsage := (g.mem.commMemUsage + size) % SIZE_T_MOD },
            (TaskHandle.comm, ptrRet, size) :: g.out⟩ := by
  have h := @malloc_comm_ok (fun _ => ptrRet) size g.mem hq hp
  simp [gstep, h, hp]

theorem gstep_alloc_sensor_fail {g : Ghost} {size ptrRet : Nat}
    (h : ptrRet = 0 ∨ ¬ (g.mem.sensorMemUsage + size) % SIZE_T_MOD ≤ SENSOR_TASK_QUOTA) :
    gstep g (Op.alloc size ptrRet TaskHandle.sensor) = some g := by
  by_cases hq : (g.mem.sensorMemUsage + size) % SIZE_T_MOD ≤ SENSOR_TASK_QUOTA
  · have hp : ptrRet = 0 := by tauto
    have heq := @malloc_sensor_oom (fun _ => ptrRet) size g.mem hq hp
    simp [gstep, heq]
  · have heq := @malloc_sensor_reject (fun _ => ptrRet) size g.mem hq
    simp [gstep, heq]

theorem gstep_alloc_comm_fail {g : Ghost} {size ptrRet : Nat}
    (h : ptrRet = 0 ∨ ¬ (g.mem.commMemUsage + size) % SIZE_T_MOD ≤ COMM_TASK_QUOTA) :
    gstep g (Op.alloc size ptrRet TaskHandle.comm) = some g := by
  by_cases hq : (g.mem.commMemUsage + size) % SIZE_T_MOD ≤ COMM_TASK_QUOTA
  · have hp : ptrRet = 0 := by tauto
    have heq := @malloc_comm_oom (fun _ => ptrRet) size g.mem hq hp
    simp [gstep, heq]
  · have heq := @malloc_comm_reject (fun _ => ptrRet) size g.mem hq
    simp [gstep, heq]

theorem gstep_alloc_other {g : Ghost} {size ptrRet n : Nat} :
    gstep g (Op.alloc size ptrRet (TaskHandle.other n)) = some g := by
  have heq := @malloc_unregistered (fun _ => ptrRet) size (TaskHandle.other n) g.mem
    (by simp) (by simp)
  simp [gstep, heq]

theorem gstep_free_mem {g : Ghost} {ptr size : Nat} {t : TaskHandle}
    (hmem : (t, ptr, size) ∈ g.out) :
    gstep g (Op.free ptr size t) =
      some ⟨(vPortFreeWithTracking ptr size t g.mem).state,
            removeOut (t, ptr, size) g.out⟩ := by
  simp [gstep, hmem]

/-!
## Invariant preservation
-/

theorem consInv_gstep {g g' : Ghost} {op : Op}
    (hinv : ConsInv g) (hstep : gstep g op = some g') : ConsInv g' := by
  obtain ⟨hs, hc, hz⟩ := hinv
  cases op with
  | alloc size ptrRet t =>
      cases t with
      | sensor =>
          by_cases hq : (g.mem.sensorMemUsage + size) % SIZE_T_MOD ≤ SENSOR_TASK_QUOTA
          · by_cases hp : ptrRet = 0
            · rw [gstep_alloc_sensor_fail (Or.inl hp)] at hstep
              injection hstep with hstep
              subst hstep
              exact ⟨hs, hc, hz⟩
            · rw [gstep_alloc_sensor_ok hq hp] at hstep
              injection hstep with hstep
              subst hstep
              refine ⟨?_, ?_, ?_⟩
              · show (g.mem.sensorMemUsage + size) % SIZE_T_MOD =
                  ((if TaskHandle.sensor = TaskHandle.sensor then size else 0) +
                    sumFor TaskHandle.sensor g.out) % SIZE_T_MOD
                rw [if_pos rfl, hs, SIZE_T_MOD_eq]
                omega
              · show g.mem.commMemUsage =
                  ((if TaskHandle.sensor = TaskHandle.comm then size else 0) +
                    sumFor TaskHandle.comm g.out) % SIZE_T_MOD
                simpa using hc
              · intro e he
                rcases List.mem_cons.mp he with rfl | he
                · exact hp
                · exact hz e he
          · rw [gstep_alloc_sensor_fail (Or.inr hq)] at hstep
            injection hstep with hstep
            subst hstep
            exact ⟨hs, hc, hz⟩
      | comm =>
          by_cases hq : (g.mem.commMemUsage + size) % SIZE_T_MOD ≤ COMM_TASK_QUOTA
          · by_cases hp : ptrRet = 0
            · rw [gstep_alloc_comm_fail (Or.inl hp)] at hstep
              injection hstep with hstep
              subst hstep
              exact ⟨hs, hc, hz⟩
            · rw [gstep_alloc_comm_ok hq hp] at hstep
              injection hstep with hstep
              subst hstep
              refine ⟨?_, ?_, ?_⟩
              · show g.mem.sensorMemUsage =
                  ((if TaskHandle.comm = TaskHandle.sensor then size else 0) +
                    sumFor TaskHandle.sensor g.out) % SIZE_T_MOD
                simpa using hs
              · show (g.mem.commMemUsage + size) % SIZE_T_MOD =
                  ((if TaskHandle.comm = TaskHandle.comm then size else 0) +
                    sumFor TaskHandle.comm g.out) % SIZE_T_MOD
                rw [if_pos rfl, hc, SIZE_T_MOD_eq]
                omega
              · intro e he
                rcases List.mem_cons.mp he with rfl | he
                · exact hp
                · exact hz e he
          · rw [gstep_alloc_comm_fail (Or.inr hq)] at hstep
            injection hstep with hstep
            subst hstep
            exact ⟨hs, hc, hz⟩
      | other n =>
          rw [gstep_alloc_other] at hstep
          injection hstep with hstep
          subst hstep
          exact ⟨hs, hc, hz⟩
  | free ptr size t =>
      by_cases hmem : (t, ptr, size) ∈ g.out
      · rw [gstep_free_mem hmem] at hstep
        injection hstep with hstep
        subst hstep
        have hptr : ptr ≠ 0 := hz (t, ptr, size) hmem
        refine ⟨?_, ?_, ?_⟩
        · show (vPortFreeWithTracking ptr size t g.mem).state.sensorMemUsage =
            sumFor TaskHandle.sensor (removeOut (t, ptr, size) g.out) % SIZE_T_MOD
          rw [sumFor_removeOut hmem]
          cases t with
          | sensor =>
              have hle : size ≤ sumFor TaskHandle.sensor g.out := le_sumFor hmem rfl
              rw [free_sensor hptr]
              show (g.mem.sensorMemUsage + (SIZE_T_MOD - size % SIZE_T_MOD)) % SIZE_T_MOD =
                (sumFor TaskHandle.sensor g.out -
                  (if TaskHandle.sensor = TaskHandle.sensor then size else 0)) % SIZE_T_MOD
              rw [if_pos rfl, hs, SIZE_T_MOD_eq]
              omega
          | comm =>
              rw [free_comm hptr]
              simpa using hs
          | other n =>
              rw [free_unregistered hptr (by simp) (by simp)]
              simpa using hs
        · show (vPortFreeWithTracking ptr size t g.mem).state.commMemUsage =
            sumFor TaskHandle.comm (removeOut (t, ptr, size) g.out) % SIZE_T_MOD
          rw [sumFor_removeOut hmem]
          cases t with
          | sensor =>
              rw [free_sensor hptr]
              simpa using hc
          | comm =>
              have hle : size ≤ sumFor TaskHandle.comm g.out := le_sumFor hmem rfl
              rw [free_comm hptr]
              show (g.mem.commMemUsage + (SIZE_T_MOD - size % SIZE_T_MOD)) % SIZE_T_MOD =
                (sumFor TaskHandle.comm g.out -
                  (if TaskHandle.comm = TaskHandle.comm then size else 0)) % SIZE_T_MOD
              rw [if_pos rfl, hc, SIZE_T_MOD_eq]
              omega
          | other n =>
              rw [free_unregistered hptr (by simp) (by simp)]
              simpa using hc
        · intro e he
          exact hz e (mem_removeOut he)
      · simp [gstep, hmem] at hstep

theorem quotaInv_gstep {g g' : Ghost} {op : Op}
    (hinv : QuotaInv g) (hop : allocSmall op = true) (hstep : gstep g op = some g') :
    QuotaInv g' := by
  obtain ⟨hs, hc, hbs, hbc, hz⟩ := hinv
  cases op with
  | alloc size ptrRet t =>
      have hsz : size + SENSOR_TASK_QUOTA < SIZE_T_MOD ∧
          size + COMM_TASK_QUOTA < SIZE_T_MOD := by
        simpa [allocSmall] using hop
      cases t with
      | sensor =>
          by_cases hq : (g.mem.sensorMemUsage + size) % SIZE_T_MOD ≤ SENSOR_TASK_QUOTA
          · by_cases hp : ptrRet = 0
            · rw [gstep_alloc_sensor_fail (Or.inl hp)] at hstep
              injection hstep with hstep
              subst hstep
              exact ⟨hs, hc, hbs, hbc, hz⟩
            · rw [gstep_alloc_sensor_ok hq hp] at hstep
              injection hstep with hstep
              subst hstep
              have hkey : (g.mem.sensorMemUsage + size) % SIZE_T_MOD =
                  size + sumFor TaskHandle.sensor g.out ∧
                  size + sumFor TaskHandle.sensor g.out ≤ SENSOR_TASK_QUOTA := by
                obtain ⟨h1, -⟩ := hsz
                rw [SENSOR_TASK_QUOTA_eq] at hbs
                rw [SIZE_T_MOD_eq, SENSOR_TASK_QUOTA_eq] at h1
                rw [hs, SIZE_T_MOD_eq, SENSOR_TASK_QUOTA_eq] at hq
                rw [hs, SIZE_T_MOD_eq, SENSOR_TASK_QUOTA_eq]
                omega
              refine ⟨?_, ?_, ?_, ?_, ?_⟩
              · show (g.mem.sensorMemUsage + size) % SIZE_T_MOD =
                  (if TaskHandle.sensor = TaskHandle.sensor then size else 0) +
                    sumFor TaskHandle.sensor g.out
                rw [if_pos rfl]
                exact hkey.1
              · show g.mem.commMemUsage =
                  (if TaskHandle.sensor = TaskHandle.comm then size else 0) +
                    sumFor TaskHandle.comm g.out
                simpa using hc
              · show (if TaskHandle.sensor = TaskHandle.sensor then size else 0) +
                  sumFor TaskHandle.sensor g.out ≤ SENSOR_TASK_QUOTA
                rw [if_pos rfl]
                exact hkey.2
              · show (if TaskHandle.sensor = TaskHandle.comm then size else 0) +
                  sumFor TaskHandle.comm g.out ≤ COMM_TASK_QUOTA
                simpa using hbc
              · intro e he
                rcases List.mem_cons.mp he with rfl | he
                · exact hp
                · exact hz e he
          · rw [gstep_alloc_sensor_fail (Or.inr hq)] at hstep
            injection hstep with hstep
            subst hstep
            exact ⟨hs, hc, hbs, hbc, hz⟩
      | comm =>
          by_cases hq : (g.mem.commMemUsage + size) % SIZE_T_MOD ≤ COMM_TASK_QUOTA
          · by_cases hp : ptrRet = 0
            · rw [gstep_alloc_comm_fail (Or.inl hp)] at hstep
              injection hstep with hstep
              subst hstep
              exact ⟨hs, hc, hbs, hbc, hz⟩
            · rw [gstep_alloc_comm_ok hq hp] at hstep
              injection hstep with hstep
              subst hstep
              have hkey : (g.mem.commMemUsage + size) % SIZE_T_MOD =
                  size + sumFor TaskHandle.comm g.out ∧
                  size + sumFor TaskHandle.comm g.out ≤ COMM_TASK_QUOTA := by
                obtain ⟨-, h2⟩ := hsz
                rw [COMM_TASK_QUOTA_eq] at hbc
                rw [SIZE_T_MOD_eq, COMM_TASK_QUOTA_eq] at h2
                rw [hc, SIZE_T_MOD_eq, COMM_TASK_QUOTA_eq] at hq
                rw [hc, SIZE_T_MOD_eq, COMM_TASK_QUOTA_eq]
                omega
              refine ⟨?_, ?_, ?_, ?_, ?_⟩
              · show g.mem.sensorMemUsage =
                  (if TaskHandle.comm = TaskHandle.sensor then size else 0) +
                    sumFor TaskHandle.sensor g.out
                simpa using hs
              · show (g.mem.commMemUsage + size) % SIZE_T_MOD =
                  (if TaskHandle.comm = TaskHandle.comm then size else 0) +
                    sumFor TaskHandle.comm g.out
                rw [if_pos rfl]
                exact hkey.1
              · show (if TaskHandle.comm = TaskHandle.sensor then size else 0) +
                  sumFor TaskHandle.sensor g.out ≤ SENSOR_TASK_QUOTA
                simpa using hbs
              · show (if TaskHandle.comm = TaskHandle.comm then size else 0) +
                  sumFor TaskHandle.comm g.out ≤ COMM_TASK_QUOTA
                rw [if_pos rfl]
                exact hkey.2
              · intro e he
                rcases List.mem_cons.mp he with rfl | he
                · exact hp
                · exact hz e he
          · rw [gstep_alloc_comm_fail (Or.inr hq)] at hstep
            injection hstep with hstep
            subst hstep
            exact ⟨hs, hc, hbs, hbc, hz⟩
      | other n =>
          rw [gstep_alloc_other] at hstep
          injection hstep with hstep
          subst hstep
          exact ⟨hs, hc, hbs, hbc, hz⟩
  | free ptr size t =>
      by_cases hmem : (t, ptr, size) ∈ g.out
      · rw [gstep_free_mem hmem] at hstep
        injection hstep with hstep
        subst hstep
        have hptr : ptr ≠ 0 := hz (t, ptr, size) hmem
        refine ⟨?_, ?_, ?_, ?_, ?_⟩
        · show (vPortFreeWithTracking ptr size t g.mem).state.sensorMemUsage =
            sumFor TaskHandle.sensor (removeOut (t, ptr, size) g.out)
          rw [sumFor_removeOut hmem]
          cases t with
          | sensor =>
              have hle : size ≤ sumFor TaskHandle.sensor g.out := le_sumFor hmem rfl
              rw [free_sensor hptr]
              show (g.mem.sensorMemUsage + (SIZE_T_MOD - size % SIZE_T_MOD)) % SIZE_T_MOD =
                sumFor TaskHandle.sensor g.out -
                  (if TaskHandle.sensor = TaskHandle.sensor then size else 0)
              rw [if_pos rfl, hs, SIZE_T_MOD_eq]
              rw [SENSOR_TASK_QUOTA_eq] at hbs
              omega
          | comm =>
              rw [free_comm hptr]
              simpa using hs
          | other n =>
              rw [free_unregistered hptr (by simp) (by simp)]
              simpa using hs
        · show (vPortFreeWithTracking ptr size t g.mem).state.commMemUsage =
            sumFor TaskHandle.comm (removeOut (t, ptr, size) g.out)
          rw [sumFor_removeOut hmem]
          cases t with
          | sensor =>
              rw [free_sensor hptr]
              simpa using hc
          | comm =>
              have hle : size ≤ sumFor TaskHandle.comm g.out := le_sumFor hmem rfl
              rw [free_comm hptr]
              show (g.mem.commMemUsage + (SIZE_T_MOD - size % SIZE_T_MOD)) % SIZE_T_MOD =
                sumFor TaskHandle.comm g.out -
                  (if TaskHandle.comm = TaskHandle.comm then size else 0)
              rw [if_pos rfl, hc, SIZE_T_MOD_eq]
              rw [COMM_TASK_QUOTA_eq] at hbc
              omega
          | other n =>
              rw [free_unregistered hptr (by simp) (by simp)]
              simpa using hc
        · rw [sumFor_removeOut hmem]
          exact le_trans (Nat.sub_le _ _) hbs
        · rw [sumFor_removeOut hmem]
          exact le_trans (Nat.sub_le _ _) hbc
        · intro e he
          exact hz e (mem_removeOut he)
      · simp [gstep, hmem] at hstep

theorem consInv_gRun {ops : List Op} {g g' : Ghost}
    (hinv : ConsInv g) (hrun : gRun g ops = some g') : ConsInv g' := by
  induction ops generalizing g with
  | nil =>
      simp only [gRun] at hrun
      injection hrun with h
      subst h
      exact hinv
  | cons op ops ih =>
      cases hst : gstep g op with
      | none => simp [gRun, hst] at hrun
      | some g1 =>
          simp only [gRun, hst] at hrun
          exact ih (consInv_gstep hinv hst) hrun

theorem quotaInv_gRun {ops : List Op} {g g' : Ghost}
    (hinv : QuotaInv g) (hsmall : ops.all allocSmall = true)
    (hrun : gRun g ops = some g') : QuotaInv g' := by
  induction ops generalizing g with
  | nil =>
      simp only [gRun] at hrun
      injection hrun with h
      subst h
      exact hinv
  | cons op ops ih =>
      rw [List.all_cons, Bool.and_eq_true] at hsmall
      cases hst : gstep g op with
      | none => simp [gRun, hst] at hrun
      | some g1 =>
          simp only [gRun, hst] at hrun
          exact ih (quotaInv_gstep hinv hsmall.1 hst) hsmall.2 hrun

/-!
## Claims
-/

/-- C1 counterexample: with usage 1 and request `2^32 - 1`, the `size_t`
sum wraps to `0 ≤ 2048`, so the call succeeds (given a willing heap) even
though `1 + (2^32 - 1) > 2048` — and `used` changes.  The claim's
"succeeds iff `U + S ≤ Q`" is therefore false as stated. -/
theorem alloc_exact_rejection_counterexample :
    (pvPortMallocWithQuota (fun _ => 1) 4294967295 TaskHandle.sensor ⟨1, 0⟩).ret ≠ 0 ∧
    ¬ (1 + 4294967295 ≤ SENSOR_TASK_QUOTA) ∧
    (pvPortMallocWithQuota (fun _ => 1) 4294967295 TaskHandle.sensor ⟨1, 0⟩).state ≠
      (⟨1, 0⟩ : MemState) := by
  refine ⟨?_, ?_, ?_⟩ <;> decide

/-- C1 (amended): assuming the heap provider returns memory when invoked,
`pvPortMallocWithQuota` succeeds iff the `size_t` sum
`(used + size) mod 2^32` is `≤` the quota (which for `used + size < 2^32`
is exactly `used + size ≤ quota`); otherwise the request is rejected and
the ledger is unchanged.  Both registered units behave alike. -/
theorem alloc_rejection_wrapped (heap : Nat → Nat) (size : Nat) (s : MemState)
    (hheap : heap size ≠ 0) :
    ((pvPortMallocWithQuota heap size TaskHandle.sensor s).ret ≠ 0 ↔
      (s.sensorMemUsage + size) % SIZE_T_MOD ≤ SENSOR_TASK_QUOTA) ∧
    (¬ (s.sensorMemUsage + size) % SIZE_T_MOD ≤ SENSOR_TASK_QUOTA →
      (pvPortMallocWithQuota heap size TaskHandle.sensor s).state = s) ∧
    (s.sensorMemUsage + size < SIZE_T_MOD →
      ((pvPortMallocWithQuota heap size TaskHandle.sensor s).ret ≠ 0 ↔
        s.sensorMemUsage + size ≤ SENSOR_TASK_QUOTA)) ∧
    ((pvPortMallocWithQuota heap size TaskHandle.comm s).ret ≠ 0 ↔
      (s.commMemUsage + size) % SIZE_T_MOD ≤ COMM_TASK_QUOTA) ∧
    (¬ (s.commMemUsage + size) % SIZE_T_MOD ≤ COMM_TASK_QUOTA →
      (pvPortMallocWithQuota heap size TaskHandle.comm s).state = s) ∧
    (s.commMemUsage + size < SIZE_T_MOD →
      ((pvPortMallocWithQuota heap size TaskHandle.comm s).ret ≠ 0 ↔
        s.commMemUsage + size ≤ COMM_TASK_QUOTA)) := by
  refine ⟨?_, ?_, ?_, ?_, ?_, ?_⟩
  · by_cases hq : (s.sensorMemUsage + size) % SIZE_T_MOD ≤ SENSOR_TASK_QUOTA
    · rw [malloc_sensor_ok hq hheap]
      exact ⟨fun _ => hq, fun _ => hheap⟩
    · rw [malloc_sensor_reject hq]
      exact ⟨fun h => absurd rfl h, fun h => absurd h hq⟩
  · intro hq
    rw [malloc_sensor_reject hq]
  · intro hlt
    have hmod : (s.sensorMemUsage + size) % SIZE_T_MOD = s.sensorMemUsage + size :=
      Nat.mod_eq_of_lt hlt
    by_cases hq : s.sensorMemUsage + size ≤ SENSOR_TASK_QUOTA
    · have hq' : (s.sensorMemUsage + size) % SIZE_T_MOD ≤ SENSOR_TASK_QUOTA := by
        rw [hmod]
        exact hq
      rw [malloc_sensor_ok hq' hheap]
      exact ⟨fun _ => hq, fun _ => hheap⟩
    · have hq' : ¬ (s.sensorMemUsage + size) % SIZE_T_MOD ≤ SENSOR_TASK_QUOTA := by
        rw [hmod]
        exact hq
      rw [malloc_sensor_reject hq']
      exact ⟨fun h => absurd rfl h, fun h => absurd h hq⟩
  · by_cases hq : (s.commMemUsage + size) % SIZE_T_MOD ≤ COMM_TASK_QUOTA
    · rw [malloc_comm_ok hq hheap]
      exact ⟨fun _ => hq, fun _ => hheap⟩
    · rw [malloc_comm_reject hq]
      exact ⟨fun h => absurd rfl h, fun h => absurd h hq⟩
  · intro hq
    rw [malloc_comm_reject hq]
  · intro hlt
    have hmod : (s.commMemUsage + size) % SIZE_T_MOD = s.commMemUsage + size :=
      Nat.mod_eq_of_lt hlt
    by_cases hq : s.commMemUsage + size ≤ COMM_TASK_QUOTA
    · have hq' : (s.commMemUsage + size) % SIZE_T_MOD ≤ COMM_TASK_QUOTA := by
        rw [hmod]
        exact hq
      rw [malloc_comm_ok hq' hheap]
      exact ⟨fun _ => hq, fun _ => hheap⟩
    · have hq' : ¬ (s.commMemUsage + size) % SIZE_T_MOD ≤ COMM_TASK_QUOTA := by
        rw [hmod]
        exact hq
      rw [malloc_comm_reject hq']
      exact ⟨fun h => absurd rfl h, fun h => absurd h hq⟩

/-- C1 witness: the amended rejection law at a concrete input — with
usage 1000 and request 100 (so `1100 ≤ 2048`), the call succeeds. -/
theorem alloc_rejection_wrapped_witness :
    ((fun _ : Nat => (1 : Nat)) 100 ≠ 0) ∧
    (pvPortMallocWithQuota (fun _ => 1) 100 TaskHandle.sensor ⟨1000, 0⟩).ret ≠ 0 :=
  ⟨by decide,
    (alloc_rejection_wrapped (fun _ => 1) 100 ⟨1000, 0⟩ (by decide)).1.mpr (by decide)⟩

/-- C2 counterexample: a contract-respecting trace on which `used` ends
above the quota.  A first allocation fills the quota (2048), a second of
`2^32 - 2048` bytes wraps the `size_t` check to `0 ≤ 2048` and (with a
heap willing to grant it) resets `used` to `0`; releasing the first
allocation then wraps `used` to `2^32 - 2048 > 2048`. -/
theorem usage_invariant_counterexample :
    gRun initGhost [Op.alloc 2048 1 TaskHandle.sensor,
        Op.alloc 4294965248 2 TaskHandle.sensor,
        Op.free 1 2048 TaskHandle.sensor] =
      some ⟨⟨4294965248, 0⟩, [(TaskHandle.sensor, 2, 4294965248)]⟩ ∧
    ¬ (4294965248 ≤ SENSOR_TASK_QUOTA) := by
  refine ⟨?_, ?_⟩ <;> decide

/-- C2 (amended): along every contract-respecting trace in which every
requested allocation size satisfies `size + quota < 2^32` (so the `size_t`
quota check cannot wrap), each unit's `used` counter stays `≤` its quota
(`0 ≤ used` holds trivially, `used` being a natural number). -/
theorem usage_never_exceeds_quota (ops : List Op) (g : Ghost)
    (hsmall : ops.all allocSmall = true)
    (hrun : gRun initGhost ops = some g) :
    g.mem.sensorMemUsage ≤ SENSOR_TASK_QUOTA ∧
    g.mem.commMemUsage ≤ COMM_TASK_QUOTA := by
  obtain ⟨h1, h2, h3, h4, -⟩ := quotaInv_gRun quotaInv_initGhost hsmall hrun
  rw [h1, h2]
  exact ⟨h3, h4⟩

/-- C2 witness: the invariant theorem at a concrete two-step trace. -/
theorem usage_never_exceeds_quota_witness :
    ([Op.alloc 100 1 TaskHandle.sensor, Op.free 1 100 TaskHandle.sensor].all allocSmall
      = true) ∧
    (gRun initGhost [Op.alloc 100 1 TaskHandle.sensor, Op.free 1 100 TaskHandle.sensor] =
      some ⟨⟨0, 0⟩, []⟩) ∧
    ((⟨⟨0, 0⟩, []⟩ : Ghost).mem.sensorMemUsage ≤ SENSOR_TASK_QUOTA ∧
      (⟨⟨0, 0⟩, []⟩ : Ghost).mem.commMemUsage ≤ COMM_TASK_QUOTA) :=
  ⟨by decide, by decide,
    usage_never_exceeds_quota
      [Op.alloc 100 1 TaskHandle.sensor, Op.free 1 100 TaskHandle.sensor]
      ⟨⟨0, 0⟩, []⟩ (by decide) (by decide)⟩

/-- C3: along every contract-respecting trace (each release names the
unit, pointer and size of a distinct prior successful allocation), once
nothing is outstanding — every successful allocation has been paired with
exactly one release — both units' `used` counters are `0`. -/
theorem paired_release_conservation (ops : List Op) (g : Ghost)
    (hrun : gRun initGhost ops = some g) (hout : g.out = []) :
    g.mem.sensorMemUsage = 0 ∧ g.mem.commMemUsage = 0 := by
  obtain ⟨h1, h2, -⟩ := consInv_gRun consInv_initGhost hrun
  rw [hout] at h1 h2
  simp only [sumFor, Nat.zero_mod] at h1 h2
  exact ⟨h1, h2⟩

/-- C3 witness: conservation at a concrete paired trace on the comm
unit. -/
theorem paired_release_conservation_witness :
    (gRun initGhost [Op.alloc 512 3 TaskHandle.comm, Op.free 3 512 TaskHandle.comm] =
      some ⟨⟨0, 0⟩, []⟩) ∧
    ((⟨⟨0, 0⟩, ([] : List (TaskHandle × Nat × Nat))⟩ : Ghost).out = []) ∧
    ((⟨⟨0, 0⟩, []⟩ : Ghost).mem.sensorMemUsage = 0 ∧
      (⟨⟨0, 0⟩, []⟩ : Ghost).mem.commMemUsage = 0) :=
  ⟨by decide, rfl,
    paired_release_conservation
      [Op.alloc 512 3 TaskHandle.comm, Op.free 3 512 TaskHandle.comm]
      ⟨⟨0, 0⟩, []⟩ (by decide) rfl⟩

/-- C5: frame property — a call naming one registered unit never changes
the other unit's usage counter, on every path of both functions. -/
theorem unit_isolation (heap : Nat → Nat) (size ptr : Nat) (s : MemState) :
    (pvPortMallocWithQuota heap size TaskHandle.sensor s).state.commMemUsage =
      s.commMemUsage ∧
    (pvPortMallocWithQuota heap size TaskHandle.comm s).state.sensorMemUsage =
      s.sensorMemUsage ∧
    (vPortFreeWithTracking ptr size TaskHandle.sensor s).state.commMemUsage =
      s.commMemUsage ∧
    (vPortFreeWithTracking ptr size TaskHandle.comm s).state.sensorMemUsage =
      s.sensorMemUsage := by
  refine ⟨?_, ?_, ?_, ?_⟩
  · by_cases hq : (s.sensorMemUsage + size) % SIZE_T_MOD ≤ SENSOR_TASK_QUOTA
    · by_cases hp : heap size = 0
      · rw [malloc_sensor_oom hq hp]
      · rw [malloc_sensor_ok hq hp]
    · rw [malloc_sensor_reject hq]
  · by_cases hq : (s.commMemUsage + size) % SIZE_T_MOD ≤ COMM_TASK_QUOTA
    · by_cases hp : heap size = 0
      · rw [malloc_comm_oom hq hp]
      · rw [malloc_comm_ok hq hp]
    · rw [malloc_comm_reject hq]
  · by_cases hptr : ptr = 0
    · subst hptr
      rw [free_null]
    · rw [free_sensor hptr]
  · by_cases hptr : ptr = 0
    · subst hptr
      rw [free_null]
    · rw [free_comm hptr]

/-- C6 counterexample: quota admits the request (`0 + 100 ≤ 2048`), the
heap returns `NULL`, and the allocator returns failure with `used`
untouched — but emits no diagnostic at all (`diags = []`), contradicting
the claim that the OutOfMemory failure is surfaced via the diagnostic
sink. -/
theorem oom_diagnostic_counterexample :
    (((⟨0, 0⟩ : MemState).sensorMemUsage + 100) % SIZE_T_MOD ≤ SENSOR_TASK_QUOTA) ∧
    ((fun _ : Nat => (0 : Nat)) 100 = 0) ∧
    (pvPortMallocWithQuota (fun _ => 0) 100 TaskHandle.sensor ⟨0, 0⟩).ret = 0 ∧
    (pvPortMallocWithQuota (fun _ => 0) 100 TaskHandle.sensor ⟨0, 0⟩).state =
      (⟨0, 0⟩ : MemState) ∧
    (pvPortMallocWithQuota (fun _ => 0) 100 TaskHandle.sensor ⟨0, 0⟩).diags =
      ([] : List Diag) := by
  refine ⟨?_, ?_, ?_, ?_, ?_⟩ <;> decide

/-- C6 (amended): for a registered unit, when the quota check passes but
the heap provider returns no memory, the call returns failure without
mutating `used` — and silently: no diagnostic line is emitted on this
path. -/
theorem oom_fails_silently_without_mutation (heap : Nat → Nat) (size : Nat)
    (t : TaskHandle) (s : MemState)
    (ht : t = TaskHandle.sensor ∨ t = TaskHandle.comm)
    (hq : (usageOf t s + size) % SIZE_T_MOD ≤ quotaOf t)
    (hp : heap size = 0) :
    (pvPortMallocWithQuota heap size t s).ret = 0 ∧
    (pvPortMallocWithQuota heap size t s).state = s ∧
    (pvPortMallocWithQuota heap size t s).diags = ([] : List Diag) := by
  rcases ht with rfl | rfl
  · simp only [usageOf, quotaOf] at hq
    rw [malloc_sensor_oom hq hp]
    exact ⟨rfl, rfl, rfl⟩
  · simp only [usageOf, quotaOf] at hq
    rw [malloc_comm_oom hq hp]
    exact ⟨rfl, rfl, rfl⟩

/-- C6 witness: the silent-OutOfMemory theorem at a concrete input. -/
theorem oom_fails_silently_without_mutation_witness :
    (TaskHandle.sensor = TaskHandle.sensor ∨ TaskHandle.sensor = TaskHandle.comm) ∧
    ((usageOf TaskHandle.sensor ⟨0, 0⟩ + 100) % SIZE_T_MOD ≤ quotaOf TaskHandle.sensor) ∧
    ((fun _ : Nat => (0 : Nat)) 100 = 0) ∧
    ((pvPortMallocWithQuota (fun _ => 0) 100 TaskHandle.sensor ⟨0, 0⟩).ret = 0 ∧
      (pvPortMallocWithQuota (fun _ => 0) 100 TaskHandle.sensor ⟨0, 0⟩).state =
        (⟨0, 0⟩ : MemState) ∧
      (pvPortMallocWithQuota (fun _ => 0) 100 TaskHandle.sensor ⟨0, 0⟩).diags =
        ([] : List Diag)) :=
  ⟨Or.inl rfl, by decide, rfl,
    oom_fails_silently_without_mutation (fun _ => 0) 100 TaskHandle.sensor ⟨0, 0⟩
      (Or.inl rfl) (by decide) rfl⟩

/-- C7: releasing a null pointer is a no-op — the function returns before
the mutex is taken, the heap provider's release is never invoked, and the
ledger is unchanged, for every unit and size. -/
theorem null_free_noop (size : Nat) (t : TaskHandle) (s : MemState) :
    (vPortFreeWithTracking 0 size t s).state = s ∧
    (vPortFreeWithTracking 0 size t s).lockTaken = false ∧
    (vPortFreeWithTracking 0 size t s).heapReleased = ([] : List Nat) := by
  rw [free_null]
  exact ⟨rfl, rfl, rfl⟩

/-- C8: scenario example 1 — quota 2048, usage 0, heap succeeding:
allocating 1280 succeeds (usage 1280), allocating 1024 is then rejected
(usage stays 1280), and releasing the 1280-byte allocation brings usage
back to 0. -/
theorem scenario_quota_cycle :
    (pvPortMallocWithQuota (fun _ => 1) 1280 TaskHandle.sensor initState).ret ≠ 0 ∧
    (pvPortMallocWithQuota (fun _ => 1) 1280 TaskHandle.sensor
      initState).state.sensorMemUsage = 1280 ∧
    (pvPortMallocWithQuota (fun _ => 1) 1024 TaskHandle.sensor
      (pvPortMallocWithQuota (fun _ => 1) 1280 TaskHandle.sensor initState).state).ret
      = 0 ∧
    (pvPortMallocWithQuota (fun _ => 1) 1024 TaskHandle.sensor
      (pvPortMallocWithQuota (fun _ => 1) 1280 TaskHandle.sensor
        initState).state).state.sensorMemUsage = 1280 ∧
    (vPortFreeWithTracking 1 1280 TaskHandle.sensor
      (pvPortMallocWithQuota (fun _ => 1) 1024 TaskHandle.sensor
        (pvPortMallocWithQuota (fun _ => 1) 1280 TaskHandle.sensor
          initState).state).state).state.sensorMemUsage = 0 := by
  refine ⟨?_, ?_, ?_, ?_, ?_⟩ <;> decide

/-- C9: a handle that is neither registered unit is rejected by the
allocator without calling the heap provider, without any diagnostic, and
without touching the ledger; the free path still releases the pointer to
the heap provider but changes no usage counter. -/
theorem unregistered_unit_rejected (heap : Nat → Nat) (size ptr : Nat)
    (t : TaskHandle) (s : MemState)
    (h1 : t ≠ TaskHandle.sensor) (h2 : t ≠ TaskHandle.comm) (hp : ptr ≠ 0) :
    (pvPortMallocWithQuota heap size t s).ret = 0 ∧
    (pvPortMallocWithQuota heap size t s).heapCalls = ([] : List Nat) ∧
    (pvPortMallocWithQuota heap size t s).diags = ([] : List Diag) ∧
    (pvPortMallocWithQuota heap size t s).state = s ∧
    (vPortFreeWithTracking ptr size t s).heapReleased = [ptr] ∧
    (vPortFreeWithTracking ptr size t s).state = s := by
  rw [malloc_unregistered h1 h2, free_unregistered hp h1 h2]
  exact ⟨rfl, rfl, rfl, rfl, rfl, rfl⟩

/-- C9 witness: the unregistered-handle theorem at a concrete input. -/
theorem unregistered_unit_rejected_witness :
    (TaskHandle.other 0 ≠ TaskHandle.sensor) ∧
    (TaskHandle.other 0 ≠ TaskHandle.comm) ∧
    ((5 : Nat) ≠ 0) ∧
    ((pvPortMallocWithQuota (fun _ => 1) 64 (TaskHandle.other 0) initState).ret = 0 ∧
      (pvPortMallocWithQuota (fun _ => 1) 64 (TaskHandle.other 0) initState).heapCalls =
        ([] : List Nat) ∧
      (pvPortMallocWithQuota (fun _ => 1) 64 (TaskHandle.other 0) initState).diags =
        ([] : List Diag) ∧
      (pvPortMallocWithQuota (fun _ => 1) 64 (TaskHandle.other 0) initState).state =
        initState ∧
      (vPortFreeWithTracking 5 64 (TaskHandle.other 0) initState).heapReleased = [5] ∧
      (vPortFreeWithTracking 5 64 (TaskHandle.other 0) initState).state = initState) :=
  ⟨by decide, by decide, by decide,
    unregistered_unit_rejected (fun _ => 1) 64 5 (TaskHandle.other 0) initState
      (by decide) (by decide) (by decide)⟩

/-- C10: the free path performs no underflow clamping — releasing a
non-null pointer with a reported size strictly greater than the unit's
current `used` wraps the counter modulo `2^32` (to
`used + 2^32 - size`, which is nonzero), rather than clamping it to 0;
both registered units behave alike. -/
theorem free_underflow_wraps (ptr size : Nat) (s : MemState)
    (hp : ptr ≠ 0) (hsz : size < SIZE_T_MOD)
    (hus : s.sensorMemUsage < size) (huc : s.commMemUsage < size) :
    (vPortFreeWithTracking ptr size TaskHandle.sensor s).state.sensorMemUsage =
      s.sensorMemUsage + SIZE_T_MOD - size ∧
    (vPortFreeWithTracking ptr size TaskHandle.sensor s).state.sensorMemUsage ≠ 0 ∧
    (vPortFreeWithTracking ptr size TaskHandle.comm s).state.commMemUsage =
      s.commMemUsage + SIZE_T_MOD - size ∧
    (vPortFreeWithTracking ptr size TaskHandle.comm s).state.commMemUsage ≠ 0 := by
  rw [free_sensor hp, free_comm hp]
  refine ⟨?_, ?_, ?_, ?_⟩
  · show (s.sensorMemUsage + (SIZE_T_MOD - size % SIZE_T_MOD)) % SIZE_T_MOD =
      s.sensorMemUsage + SIZE_T_MOD - size
    rw [SIZE_T_MOD_eq] at hsz ⊢
    omega
  · show (s.sensorMemUsage + (SIZE_T_MOD - size % SIZE_T_MOD)) % SIZE_T_MOD ≠ 0
    rw [SIZE_T_MOD_eq] at hsz ⊢
    omega
  · show (s.commMemUsage + (SIZE_T_MOD - size % SIZE_T_MOD)) % SIZE_T_MOD =
      s.commMemUsage + SIZE_T_MOD - size
    rw [SIZE_T_MOD_eq] at hsz ⊢
    omega
  · show (s.commMemUsage + (SIZE_T_MOD - size % SIZE_T_MOD)) % SIZE_T_MOD ≠ 0
    rw [SIZE_T_MOD_eq] at hsz ⊢
    omega

/-- C10 witness: the underflow-wrap theorem at a concrete input
(usage 5, reported size 10). -/
theorem free_underflow_wraps_witness :
    ((1 : Nat) ≠ 0) ∧ (10 < SIZE_T_MOD) ∧
    ((⟨5, 5⟩ : MemState).sensorMemUsage < 10) ∧
    ((⟨5, 5⟩ : MemState).commMemUsage < 10) ∧
    ((vPortFreeWithTracking 1 10 TaskHandle.sensor ⟨5, 5⟩).state.sensorMemUsage =
        (⟨5, 5⟩ : MemState).sensorMemUsage + SIZE_T_MOD - 10 ∧
      (vPortFreeWithTracking 1 10 TaskHandle.sensor ⟨5, 5⟩).state.sensorMemUsage ≠ 0 ∧
      (vPortFreeWithTracking 1 10 TaskHandle.comm ⟨5, 5⟩).state.commMemUsage =
        (⟨5, 5⟩ : MemState).commMemUsage + SIZE_T_MOD - 10 ∧
      (vPortFreeWithTracking 1 10 TaskHandle.comm ⟨5, 5⟩).state.commMemUsage ≠ 0) :=
  ⟨by decide, by decide, by decide, by decide,
    free_underflow_wraps 1 10 ⟨5, 5⟩ (by decide) (by decide) (by decide) (by decide)⟩

end AgroSense
